import Mathlib

/-!
Shallow embedding of the GoFile Discord Embedder streaming proxy
(src/index.js): the short-link registry, the video prefetch cache and the
range-proxy route, together with theorems checking the natural-language
specification against them. JS Maps are modelled as insertion-ordered
association lists; the JS string and buffer operations that matter
(parseInt, split, replace, Buffer.subarray, regex scans) are modelled at
the character-list level.
-/

set_option linter.unusedVariables false

namespace GoFileEmbedder

/- Configuration constants (src/index.js:16-21). -/

def CACHE_CHUNK : Nat := 2 * 1024 * 1024

def MAX_CACHE : Nat := 50

def CACHE_TTL : Nat := 30 * 60 * 1000

def MAX_LINKS : Nat := 10000

def LINK_TTL : Nat := 60 * 60 * 1000

/- JS Map primitives, on insertion-ordered association lists. -/

/-- Map.get: the value of the first (only) pair whose key matches. -/
def mapGet {α : Type} (m : List (String × α)) (k : String) : Option α :=
  (m.find? (fun p => p.1 == k)).map (fun p => p.2)

/-- Map.set: replace the value in place when the key is present (keeping
its insertion position), otherwise append the new pair at the end. -/
def mapSet {α : Type} (m : List (String × α)) (k : String) (v : α) :
    List (String × α) :=
  if k ∈ m.map Prod.fst then m.map (fun p => if p.1 = k then (k, v) else p)
  else m ++ [(k, v)]

/-- The while loop shared by pruneLinks and pruneCache: delete the oldest
(front, first-inserted) entry while the store is over its maximum size. -/
def evictOldest {α : Type} (maxSize : Nat) :
    List (String × α) → List (String × α)
  | [] => []
  | x :: xs =>
    if (x :: xs).length > maxSize then evictOldest maxSize xs else x :: xs

/- Short link store (src/index.js:30-51). -/

/-- A stored short-link record (src/index.js:27): videoUrl, token, thumb,
name, w, h, plus the createdAt stamp that storeLink sets at insertion. -/
structure LinkEntry where
  videoUrl : String
  token : String
  thumb : String
  name : String
  w : Nat
  h : Nat
  createdAt : Nat
deriving Repr, DecidableEq

abbrev LinkStore := List (String × LinkEntry)

/-- pruneLinks (src/index.js:36-44): delete every entry whose age exceeds
LINK_TTL (the JS test is now - createdAt > LINK_TTL, so we keep the
complement; Nat truncated subtraction matches the JS comparison because a
negative age is also not greater than the TTL), then evict from the front
while the store is over MAX_LINKS. -/
def pruneLinks (now : Nat) (m : LinkStore) : LinkStore :=
  evictOldest MAX_LINKS (m.filter (fun p => now - p.2.createdAt ≤ LINK_TTL))

/-- storeLink (src/index.js:46-51). The identifier that createShortId
draws from crypto.randomBytes is an explicit input here, making the
random choice visible; the source stores it with a plain Map.set and
performs no check that the identifier is not already live. -/
def storeLink (now : Nat) (id : String) (d : LinkEntry) (m : LinkStore) :
    String × LinkStore :=
  let m1 := pruneLinks now m
  (id, mapSet m1 id { d with createdAt := now })

/- Video start cache (src/index.js:60-102). -/

/-- A cached video prefix (src/index.js:57): the buffered bytes, the
content type, the total resource size when the origin disclosed one
(null otherwise), and the creation stamp. -/
structure CacheEntry where
  buffer : List Nat
  contentType : String
  totalSize : Option Nat
  createdAt : Nat
deriving Repr, DecidableEq

abbrev VideoCache := List (String × CacheEntry)

/-- The character class [a-f0-9-] of the cacheKey regex. -/
def isHexDashChar (c : Char) : Bool :=
  decide (('a' ≤ c ∧ c ≤ 'f') ∨ ('0' ≤ c ∧ c ≤ '9') ∨ c = '-')

def dlWebPat : List Char := "/download/web/".toList

/-- One attempted match of the regex of cacheKey at the head of cs: the
literal "/download/web/", then a nonempty greedy [a-f0-9-]+ run, then a
mandatory slash. Since the slash is not in the character class, greedy
matching with backtracking reduces to: the maximal run, followed by a
slash. -/
def cacheKeyMatchAt (cs : List Char) : Option (List Char) :=
  if dlWebPat.isPrefixOf cs then
    let rest := cs.drop dlWebPat.length
    let run := rest.takeWhile isHexDashChar
    match run, rest.drop run.length with
    | r :: rs, '/' :: _ => some (r :: rs)
    | _, _ => none
  else none

/-- url.match scanning: the leftmost position at which the pattern
matches, as the JS regex engine finds it. -/
def cacheKeyScan : List Char → Option (List Char)
  | [] => none
  | c :: cs =>
    match cacheKeyMatchAt (c :: cs) with
    | some r => some r
    | none => cacheKeyScan cs

/-- cacheKey (src/index.js:62-65): the captured file id when the URL
matches the /download/web/ pattern, otherwise the whole URL string. -/
def cacheKey (url : String) : String :=
  match cacheKeyScan url.toList with
  | some r => String.mk r
  | none => url

/-- pruneCache (src/index.js:67-75): the same shape as pruneLinks, with
CACHE_TTL and MAX_CACHE. -/
def pruneCache (now : Nat) (m : VideoCache) : VideoCache :=
  evictOldest MAX_CACHE (m.filter (fun p => now - p.2.createdAt ≤ CACHE_TTL))

/-- resp.headers[k] (axios lower-cases response header names). -/
def headerGet (hs : List (String × String)) (k : String) : Option String :=
  (hs.find? (fun p => p.1 == k)).map (fun p => p.2)

/-- JS x || d for a possibly missing string: the default replaces both a
missing value and the empty (falsy) string. -/
def jsOrStr (v : Option String) (d : String) : String :=
  match v with
  | none => d
  | some s => if s = "" then d else s

/-- The numeric value of a run of decimal digit characters, most
significant first, as parseInt reads it. -/
def digitsToNat (ds : List Char) : Nat :=
  ds.foldl (fun a c => a * 10 + (c.toNat - 48)) 0

/-- range.match of one slash followed by a digit group: the leftmost
slash that is followed by at least one digit; the capture is the maximal
digit run after it, read as a number. -/
def totalFromRange : List Char → Option Nat
  | [] => none
  | c :: cs =>
    if c = '/' then
      match cs.takeWhile Char.isDigit with
      | [] => totalFromRange cs
      | d :: ds => some (digitsToNat (d :: ds))
    else totalFromRange cs

/-- Outcome of the awaited warm-up axios.get: success carries the
response headers and body bytes; failure stands for every rejected
promise (timeout, network error, or a non-2xx status, which axios
rejects by default). -/
inductive FetchResult where
  | success (headers : List (String × String)) (data : List Nat)
  | failure
deriving Repr, DecidableEq

/-- prefetch (src/index.js:77-102) as a cache transition. The outbound
request itself (Range bytes=0-(CACHE_CHUNK-1), the cookie, timeout 15000,
maxRedirects 5) is recorded in prefetchFetchConfig below; res is what the
awaited call produced. The early return leaves an existing entry in
place; on failure the catch block only logs, so the cache is untouched.
Note that the buffer stores resp.data verbatim, without truncation. -/
def prefetch (now : Nat) (url : String) (res : FetchResult)
    (cache : VideoCache) : VideoCache :=
  let key := cacheKey url
  if (mapGet cache key).isSome then cache
  else
    match res with
    | FetchResult.failure => cache
    | FetchResult.success hs data =>
      let ct := jsOrStr (headerGet hs "content-type") "video/mp4"
      let range := jsOrStr (headerGet hs "content-range") ""
      let total := totalFromRange range.toList
      mapSet (pruneCache now cache) key
        { buffer := data, contentType := ct, totalSize := total,
          createdAt := now }

/- Trusted origin check (src/index.js:114-117). -/

/-- The suffix of cs after the first occurrence of pat, none when pat
does not occur (pat is nonempty at every use site). -/
def afterFirst (pat : List Char) : List Char → Option (List Char)
  | [] => none
  | c :: cs =>
    if pat.isPrefixOf (c :: cs) then some ((c :: cs).drop pat.length)
    else afterFirst pat cs

/-- isGoFile: new URL(url).hostname must end with ".gofile.io"; a URL
that does not parse yields false. The hostname is modelled for the
http(s) URLs this program handles: the text between the "://" scheme
separator and the next slash, colon, question mark or hash; a string
without "://" makes the URL constructor throw, which is caught to
false. -/
def isGoFile (url : String) : Bool :=
  match afterFirst "://".toList url.toList with
  | none => false
  | some rest =>
    ".gofile.io".toList.isSuffixOf
      (rest.takeWhile (fun c => !(c == '/' || c == ':' || c == '?' || c == '#')))

/- Range header parsing (src/index.js:430-437). -/

def isWsChar (c : Char) : Bool :=
  c == ' ' || c == '\t' || c == '\n' || c == '\r'

/-- The leading decimal-digit run for parseInt; none when there is no
digit at all (NaN). -/
def parseLeadingNat (cs : List Char) : Option Nat :=
  match cs.takeWhile Char.isDigit with
  | [] => none
  | d :: ds => some (digitsToNat (d :: ds))

/-- parseInt(s, 10): skip leading whitespace, an optional sign, then the
leading digit run; none is NaN. -/
def jsParseIntL (cs : List Char) : Option Int :=
  match cs.dropWhile isWsChar with
  | [] => none
  | c :: rest =>
    if c = '-' then (parseLeadingNat rest).map (fun n => -(n : Int))
    else if c = '+' then (parseLeadingNat rest).map (fun n => (n : Int))
    else (parseLeadingNat (c :: rest)).map (fun n => (n : Int))

/-- String.prototype.split on the dash character. -/
def splitDash : List Char → List (List Char)
  | [] => [[]]
  | c :: cs =>
    if c = '-' then [] :: splitDash cs
    else
      match splitDash cs with
      | [] => [[c]]
      | p :: ps => (c :: p) :: ps

/-- replace of the pattern bytes= with the empty string: a JS regex
replace without the global flag removes the first occurrence only. -/
def removeFirstMatch (pat : List Char) : List Char → List Char
  | [] => []
  | c :: cs =>
    if pat.isPrefixOf (c :: cs) then (c :: cs).drop pat.length
    else c :: removeFirstMatch pat cs

/-- The Range-header parsing of the /v route (src/index.js:433-437):
rStart is parseInt(parts[0], 10) || 0; rEnd is parts[1] when truthy,
parsed, else null. In the second component, none is null (parts[1]
missing or empty), some none is NaN (parts[1] nonempty but nonnumeric),
and some (some n) is the number n. -/
def parseRange (h : String) : Int × Option (Option Int) :=
  let parts := splitDash (removeFirstMatch "bytes=".toList h.toList)
  let rStart : Int := (jsParseIntL (parts.headD [])).getD 0
  let p1 := (parts.drop 1).headD []
  (rStart, if p1.isEmpty then none else some (jsParseIntL p1))

/- The streaming proxy route (src/index.js:421-483). -/

/-- Buffer.subarray(start, endIdx) with TypedArray index semantics: a
negative index counts from the end, both are clamped to [0, length], and
the result is the byte range [relStart, relEnd). -/
def jsSubarray (buf : List Nat) (start endIdx : Int) : List Nat :=
  let len : Int := buf.length
  let relStart := if start < 0 then max (len + start) 0 else min start len
  let relEnd := if endIdx < 0 then max (len + endIdx) 0 else min endIdx len
  (buf.take relEnd.toNat).drop relStart.toNat

/-- The byte slice [s, e] of a buffer, both endpoints included: the form
the specification uses to describe cache answers. -/
def byteSlice (buf : List Nat) (s e : Nat) : List Nat :=
  (buf.drop s).take (e + 1 - s)

/-- The request data the /v/:filename handler reads: req.query.id and
req.headers.range (the cosmetic filename plays no role). -/
structure VRequest where
  qid : Option String
  range : Option String
deriving Repr, DecidableEq

/-- The headers and body of a cache-path answer
(src/index.js:446-454). -/
structure CacheResponse where
  status : Nat
  contentType : String
  contentLength : Nat
  acceptRanges : String
  contentDisposition : String
  contentRange : Option String
  body : List Nat
deriving Repr, DecidableEq

/-- What the /v handler decides before any upstream streaming happens:
a terminal plain-text response, a fully formed answer from the cache, or
the opening of a live pass-through stream to the origin with the
forwarded range header and cookie. -/
inductive VOutcome where
  | plain (status : Nat) (body : String)
  | cacheHit (r : CacheResponse)
  | live (range : Option String) (cookie : Option String) (url : String)
deriving Repr, DecidableEq

def VOutcome.cacheResp : VOutcome → Option CacheResponse
  | VOutcome.cacheHit r => some r
  | _ => none

def VOutcome.isLive : VOutcome → Bool
  | VOutcome.live _ _ _ => true
  | _ => false

/-- linkStore.get(req.query.id): a missing query parameter misses every
string key. -/
def lookupId (links : LinkStore) (qid : Option String) : Option LinkEntry :=
  match qid with
  | none => none
  | some i => mapGet links i

/-- The live branch of the handler (src/index.js:459-476): forward the
original range header verbatim and attach the cookie when the stored
token is truthy. -/
def liveOutcome (links : LinkStore) (cache : VideoCache) (entry : LinkEntry)
    (range : Option String) : VOutcome × LinkStore × VideoCache :=
  (VOutcome.live range
    (if entry.token = "" then none else some ("accountToken=" ++ entry.token))
    entry.videoUrl, links, cache)

/-- The GET /v/:filename handler (src/index.js:421-483), up to the point
where it either answers terminally, answers from the cache, or opens the
live stream. The route never writes to either map, so the stores are
returned unchanged alongside the outcome. -/
def videoRoute (links : LinkStore) (cache : VideoCache) (req : VRequest) :
    VOutcome × LinkStore × VideoCache :=
  match lookupId links req.qid with
  | none => (VOutcome.plain 404 "Link expired or not found.", links, cache)
  | some entry =>
    if isGoFile entry.videoUrl then
      match mapGet cache (cacheKey entry.videoUrl), req.range with
      | some cached, some h =>
        let pr := parseRange h
        match (match pr.2 with
               | some v => v
               | none => some ((cached.buffer.length : Int) - 1)) with
        | none => liveOutcome links cache entry req.range
        | some e =>
          if pr.1 < (cached.buffer.length : Int) ∧
              e < (cached.buffer.length : Int) then
            let slice := jsSubarray cached.buffer pr.1 (e + 1)
            (VOutcome.cacheHit
              { status := 206
                contentType := cached.contentType
                contentLength := slice.length
                acceptRanges := "bytes"
                contentDisposition := "inline"
                contentRange :=
                  match cached.totalSize with
                  | some t =>
                    if t ≠ 0 then
                      some ("bytes " ++ toString pr.1 ++ "-" ++ toString e
                        ++ "/" ++ toString t)
                    else none
                  | none => none
                body := slice }, links, cache)
          else liveOutcome links cache entry req.range
      | _, _ => liveOutcome links cache entry req.range
    else (VOutcome.plain 403 "Invalid source.", links, cache)

/-- The catch handler of the live path (src/index.js:477-482): when
response headers have not been sent yet, answer with
err.response?.status || 502 and the text "Proxy error"; once headers are
out nothing more can be sent. -/
def handleLiveFailure (errStatus : Option Nat) (headersSent : Bool) :
    Option (Nat × String) :=
  if headersSent then none
  else
    some ((match errStatus with
           | some s => if s ≠ 0 then s else 502
           | none => 502), "Proxy error")

/- Outbound request configurations, transcribed from the four axios call
sites. A missing option means the axios default; in particular the axios
default timeout is 0, which disables the timeout entirely. -/

structure AxiosConfig where
  timeout : Option Nat
  maxRedirects : Option Nat
  responseType : Option String
  decompress : Option Bool
deriving Repr, DecidableEq

/-- The warm-up ranged read (src/index.js:84-86). -/
def prefetchFetchConfig : AxiosConfig :=
  { timeout := some 15000, maxRedirects := some 5,
    responseType := some "arraybuffer", decompress := none }

/-- The live-stream open (src/index.js:464-466): no timeout key. -/
def liveStreamFetchConfig : AxiosConfig :=
  { timeout := none, maxRedirects := some 5,
    responseType := some "stream", decompress := some false }

/-- The guest-token POST to api.gofile.io/accounts (src/index.js:241):
no options object at all. -/
def accountsFetchConfig : AxiosConfig :=
  { timeout := none, maxRedirects := none,
    responseType := none, decompress := none }

/-- The metadata GET to api.gofile.io/contents (src/index.js:246-249):
params and headers only. -/
def contentsFetchConfig : AxiosConfig :=
  { timeout := none, maxRedirects := none,
    responseType := none, decompress := none }

/-- Every outbound origin call the program makes. -/
def outboundOriginCalls : List AxiosConfig :=
  [accountsFetchConfig, contentsFetchConfig, prefetchFetchConfig,
   liveStreamFetchConfig]

/- Concrete data used by witnesses, counterexamples and scenarios. -/

/-- A fixed metadata record for insertion scenarios (the id and createdAt
of a stored copy come from storeLink). -/
def sampleLink : LinkEntry :=
  { videoUrl := "https://store1.gofile.io/download/web/0a-b1/v.mp4",
    token := "t", thumb := "", name := "video.mp4",
    w := 1920, h := 1080, createdAt := 0 }

/-- A second, distinct metadata record. -/
def otherLink : LinkEntry :=
  { videoUrl := "https://store2.gofile.io/download/web/9c-d8/w.mp4",
    token := "u", thumb := "", name := "other.mp4",
    w := 1280, h := 720, createdAt := 0 }

/-- Pairwise-distinct identifiers for insertion scenarios. -/
def mkId (i : Nat) : String := String.mk (List.replicate i 'a')

def mkIds (n : Nat) : List String := (List.range n).map mkId

/-- A sequence of storeLink insertions at time 0 with the given
identifiers. -/
def insertAll (ids : List String) (m : LinkStore) : LinkStore :=
  ids.foldl (fun acc id => (storeLink 0 id sampleLink acc).2) m

def demoUrl : String := "https://store1.gofile.io/x"

def demoEntry : LinkEntry :=
  { videoUrl := demoUrl, token := "t", thumb := "", name := "v.mp4",
    w := 1920, h := 1080, createdAt := 0 }

def demoLinks : LinkStore := [("x", demoEntry)]

/-- A second link entry that shares the URL of demoEntry but differs in
its display name. -/
def demoEntry2 : LinkEntry :=
  { videoUrl := demoUrl, token := "u", thumb := "", name := "w.mp4",
    w := 1280, h := 720, createdAt := 5 }

def demoLinks2 : LinkStore := [("x", demoEntry), ("y", demoEntry2)]

/-- A warmed cache entry for demoUrl with three bytes and a known
total. -/
def dcEntry : CacheEntry :=
  { buffer := [10, 20, 30], contentType := "video/mp4",
    totalSize := some 300, createdAt := 0 }

def demoCache : VideoCache := [(demoUrl, dcEntry)]

/-- A warmed cache entry for demoUrl with seven bytes. -/
def dc7Entry : CacheEntry :=
  { buffer := [0, 1, 2, 3, 4, 5, 6], contentType := "video/mp4",
    totalSize := some 700, createdAt := 0 }

def demoCache7 : VideoCache := [(demoUrl, dc7Entry)]

/-- A cache whose entry was produced by a warm-up whose origin reported a
zero total in Content-Range while still sending three body bytes. -/
def zeroTotalCache : VideoCache :=
  prefetch 0 demoUrl
    (FetchResult.success [("content-range", "bytes 0-2/0")] [10, 20, 30]) []

/-- A link entry whose stored URL is outside the gofile.io family. -/
def badEntry : LinkEntry :=
  { videoUrl := "https://evil.example.com/x", token := "", thumb := "",
    name := "n", w := 1, h := 1, createdAt := 0 }

def badLinks : LinkStore := [("b", badEntry)]

/- Helper lemmas about the store primitives. -/

theorem evictOldest_length {α : Type} (maxSize : Nat) (l : List (String × α)) :
    (evictOldest maxSize l).length = min l.length maxSize := by
  induction l with
  | nil => simp [evictOldest]
  | cons x xs ih =>
    by_cases h : (x :: xs).length > maxSize
    · rw [evictOldest, if_pos h, ih]
      simp only [List.length_cons] at h ⊢
      omega
    · rw [evictOldest, if_neg h]
      simp only [List.length_cons] at h ⊢
      omega

theorem evictOldest_eq_self {α : Type} (maxSize : Nat) (l : List (String × α))
    (h : l.length ≤ maxSize) : evictOldest maxSize l = l := by
  cases l with
  | nil => rfl
  | cons x xs => rw [evictOldest, if_neg (by omega)]

theorem evictOldest_eq_drop {α : Type} (maxSize : Nat) (l : List (String × α)) :
    evictOldest maxSize l = l.drop (l.length - maxSize) := by
  induction l with
  | nil => simp [evictOldest]
  | cons x xs ih =>
    by_cases h : (x :: xs).length > maxSize
    · rw [evictOldest, if_pos h, ih]
      simp only [List.length_cons] at h ⊢
      have hd : xs.length + 1 - maxSize = (xs.length - maxSize) + 1 := by omega
      rw [hd, List.drop_succ_cons]
    · rw [evictOldest, if_neg h]
      simp only [List.length_cons] at h ⊢
      have hd : xs.length + 1 - maxSize = 0 := by omega
      rw [hd, List.drop_zero]

theorem find?_key_none {α : Type} (m : List (String × α)) (k : String)
    (hk : k ∉ m.map Prod.fst) :
    m.find? (fun p => p.1 == k) = none := by
  induction m with
  | nil => rfl
  | cons p ps ih =>
    rw [List.find?_cons_of_neg]
    · exact ih (fun h => hk (by simp at h ⊢; exact Or.inr h))
    · simp only [beq_iff_eq]
      intro h
      exact hk (by simp [h])

theorem find?_setMap {α : Type} (m : List (String × α)) (k : String) (v : α)
    (hk : k ∈ m.map Prod.fst) :
    (m.map (fun p => if p.1 = k then (k, v) else p)).find? (fun p => p.1 == k)
      = some (k, v) := by
  induction m with
  | nil => simp at hk
  | cons p ps ih =>
    simp only [List.map_cons]
    by_cases hp : p.1 = k
    · rw [if_pos hp]
      rw [List.find?_cons_of_pos _ (by simp)]
    · rw [if_neg hp]
      rw [List.find?_cons_of_neg _ (by simp [hp])]
      refine ih ?_
      simp only [List.map_cons, List.mem_cons] at hk
      rcases hk with h | h
      · exact absurd h.symm hp
      · exact h

theorem mapGet_mapSet_self {α : Type} (m : List (String × α)) (k : String)
    (v : α) : mapGet (mapSet m k v) k = some v := by
  unfold mapGet mapSet
  by_cases hk : k ∈ m.map Prod.fst
  · rw [if_pos hk, find?_setMap m k v hk]; rfl
  · rw [if_neg hk]
    induction m with
    | nil => simp [List.find?]
    | cons p ps ih =>
      rw [List.cons_append, List.find?_cons_of_neg]
      · refine ih (fun h => hk (by simp at h ⊢; exact Or.inr h))
      · simp only [beq_iff_eq]
        intro h
        exact hk (by simp [h])

theorem mapSet_length_le {α : Type} (m : List (String × α)) (k : String)
    (v : α) : (mapSet m k v).length ≤ m.length + 1 := by
  unfold mapSet
  by_cases hk : k ∈ m.map Prod.fst
  · rw [if_pos hk]; simp
  · rw [if_neg hk]; simp

theorem mapSet_keys_nodup {α : Type} (m : List (String × α)) (k : String)
    (v : α) (h : (m.map Prod.fst).Nodup) :
    ((mapSet m k v).map Prod.fst).Nodup := by
  unfold mapSet
  by_cases hk : k ∈ m.map Prod.fst
  · rw [if_pos hk]
    have hkeys : (m.map (fun p => if p.1 = k then (k, v) else p)).map Prod.fst
        = m.map Prod.fst := by
      rw [List.map_map]
      refine List.map_congr_left ?_
      intro p _
      by_cases hp : p.1 = k
      · simp [Function.comp, hp]
      · simp [Function.comp, hp]
    rw [hkeys]
    exact h
  · rw [if_neg hk, List.map_append]
    rw [show (([(k, v)] : List (String × α)).map Prod.fst) = [k] from rfl]
    rw [show (m.map Prod.fst) ++ [k] = (m.map Prod.fst).concat k from
      (List.concat_eq_append _ _).symm]
    exact h.concat hk

theorem pruneCache_keys_sublist (now : Nat) (cache : VideoCache) :
    ((pruneCache now cache).map Prod.fst).Sublist (cache.map Prod.fst) := by
  unfold pruneCache
  rw [evictOldest_eq_drop]
  exact ((List.drop_sublist _ _).map Prod.fst).trans
    ((List.filter_sublist _).map Prod.fst)

theorem jsSubarray_eq_byteSlice (buf : List Nat) (s e : Int)
    (hs0 : 0 ≤ s) (he0 : 0 ≤ e) (hslt : s < (buf.length : Int))
    (helt : e < (buf.length : Int)) :
    jsSubarray buf s (e + 1) = byteSlice buf s.toNat e.toNat := by
  simp only [jsSubarray, byteSlice]
  rw [if_neg (by omega), if_neg (by omega)]
  rw [min_eq_left (by omega : s ≤ (buf.length : Int)),
      min_eq_left (by omega : e + 1 ≤ (buf.length : Int))]
  rw [List.drop_take]
  congr 1
  omega

theorem liveOutcome_isLive (links : LinkStore) (cache : VideoCache)
    (entry : LinkEntry) (r : Option String) :
    (liveOutcome links cache entry r).1.isLive = true := by
  simp [liveOutcome, VOutcome.isLive]

/-- The cache branch of the /v handler, fully reduced: under a resolved
link, a trusted origin, a cache entry for the derived key and an
in-bounds parsed range, the handler answers with the 206 record built
from the buffer slice, leaving both stores unchanged. -/
theorem videoRoute_cacheHit (links : LinkStore) (cache : VideoCache)
    (i h : String) (entry : LinkEntry) (cached : CacheEntry)
    (rStart : Int) (rEndO : Option (Option Int)) (e : Int)
    (hlink : mapGet links i = some entry)
    (hgo : isGoFile entry.videoUrl = true)
    (hcache : mapGet cache (cacheKey entry.videoUrl) = some cached)
    (hparse : parseRange h = (rStart, rEndO))
    (heff : rEndO = some (some e) ∨
      (rEndO = none ∧ e = (cached.buffer.length : Int) - 1))
    (hcond : rStart < (cached.buffer.length : Int) ∧
      e < (cached.buffer.length : Int)) :
    videoRoute links cache ⟨some i, some h⟩ =
      (VOutcome.cacheHit
        { status := 206
          contentType := cached.contentType
          contentLength := (jsSubarray cached.buffer rStart (e + 1)).length
          acceptRanges := "bytes"
          contentDisposition := "inline"
          contentRange :=
            match cached.totalSize with
            | some t =>
              if t ≠ 0 then
                some ("bytes " ++ toString rStart ++ "-" ++ toString e
                  ++ "/" ++ toString t)
              else none
            | none => none
          body := jsSubarray cached.buffer rStart (e + 1) }, links, cache) := by
  rcases heff with h1 | ⟨h1, h2⟩
  · subst h1
    simp only [videoRoute, lookupId, hlink, hgo, hcache, hparse, if_true]
    rw [if_pos hcond]
  · subst h1
    subst h2
    simp only [videoRoute, lookupId, hlink, hgo, hcache, hparse, if_true]
    rw [if_pos hcond]

/- Helper lemmas about the range-header parser. -/

theorem isWsChar_of_isDigit (c : Char) (h : c.isDigit = true) :
    isWsChar c = false := by
  rcases eq_or_ne c ' ' with rfl | h1
  · exact absurd h (by decide)
  rcases eq_or_ne c '\t' with rfl | h2
  · exact absurd h (by decide)
  rcases eq_or_ne c '\n' with rfl | h3
  · exact absurd h (by decide)
  rcases eq_or_ne c '\r' with rfl | h4
  · exact absurd h (by decide)
  simp [isWsChar, h1, h2, h3, h4]

theorem ne_dash_of_isDigit (c : Char) (h : c.isDigit = true) : c ≠ '-' := by
  rintro rfl; exact absurd h (by decide)

theorem ne_plus_of_isDigit (c : Char) (h : c.isDigit = true) : c ≠ '+' := by
  rintro rfl; exact absurd h (by decide)

theorem takeWhile_isDigit_eq_self (ds : List Char)
    (h : ∀ c ∈ ds, c.isDigit = true) : ds.takeWhile Char.isDigit = ds := by
  induction ds with
  | nil => rfl
  | cons d rest ih =>
    rw [List.takeWhile_cons, if_pos (h d (List.mem_cons_self d rest))]
    rw [ih (fun c hc => h c (List.mem_cons_of_mem d hc))]

theorem splitDash_no_dash (cs : List Char) (h : ∀ c ∈ cs, c ≠ '-') :
    splitDash cs = [cs] := by
  induction cs with
  | nil => rfl
  | cons c rest ih =>
    rw [splitDash, if_neg (h c (List.mem_cons_self c rest))]
    rw [ih (fun x hx => h x (List.mem_cons_of_mem c hx))]

theorem removeFirstMatch_append (pat t : List Char) (hp : pat ≠ []) :
    removeFirstMatch pat (pat ++ t) = t := by
  match pat, hp with
  | p :: ps, _ =>
    show removeFirstMatch (p :: ps) (p :: (ps ++ t)) = t
    rw [removeFirstMatch]
    rw [if_pos]
    · show List.drop (p :: ps).length (p :: (ps ++ t)) = t
      have hc : p :: (ps ++ t) = (p :: ps) ++ t := rfl
      rw [hc, List.drop_left]
    · rw [List.isPrefixOf_iff_prefix]
      exact List.prefix_append (p :: ps) t

theorem jsParseIntL_digits (ds : List Char) (hne : ds ≠ [])
    (hdig : ∀ c ∈ ds, c.isDigit = true) :
    jsParseIntL ds = some ((digitsToNat ds : Nat) : Int) := by
  match ds, hne with
  | d :: rest, _ =>
    have hd := hdig d (List.mem_cons_self d rest)
    have hws : isWsChar d = false := isWsChar_of_isDigit d hd
    have h1 : d ≠ '-' := ne_dash_of_isDigit d hd
    have h2 : d ≠ '+' := ne_plus_of_isDigit d hd
    simp only [jsParseIntL, List.dropWhile_cons, hws, Bool.false_eq_true,
      if_false, h1, h2, ite_false, ite_true]
    rw [parseLeadingNat, takeWhile_isDigit_eq_self (d :: rest) hdig]
    rfl

/-- The Range parser on a suffix-form header: bytes=-N parses to
rStart = 0 (parts[0] is empty, so parseInt gives NaN, defaulted to 0 by
the or-zero) and rEnd = N. -/
theorem parseRange_suffix (ds : List Char) (hne : ds ≠ [])
    (hdig : ∀ c ∈ ds, c.isDigit = true) :
    parseRange ("bytes=-" ++ String.mk ds) =
      (0, some (some ((digitsToNat ds : Nat) : Int))) := by
  have h1 : ("bytes=-" ++ String.mk ds).toList = "bytes=".toList ++ ('-' :: ds) := by
    show ("bytes=-" ++ String.mk ds).data = _
    rw [String.data_append]
    rfl
  simp only [parseRange, h1]
  rw [removeFirstMatch_append _ _ (by decide)]
  rw [splitDash, if_pos rfl]
  rw [splitDash_no_dash ds (fun c hc => ne_dash_of_isDigit c (hdig c hc))]
  simp only [List.drop, List.headD]
  rw [jsParseIntL_digits ds hne hdig]
  have hemp : ds.isEmpty = false := by
    cases ds with
    | nil => exact absurd rfl hne
    | cons d rest => rfl
  rw [hemp]
  rfl

/- Helper lemmas about the MAX+1 insertion scenario. -/

theorem mkId_injective : Function.Injective mkId := by
  intro i j h
  have h2 : List.replicate i 'a' = List.replicate j 'a' := by
    have h3 := congrArg String.data h
    simpa [mkId] using h3
  have h4 := congrArg List.length h2
  simpa using h4

theorem mkIds_nodup (n : Nat) : (mkIds n).Nodup :=
  (List.nodup_range n).map mkId_injective

theorem insertAll_snoc (ids : List String) (x : String) (m : LinkStore) :
    insertAll (ids ++ [x]) m = (storeLink 0 x sampleLink (insertAll ids m)).2 := by
  simp [insertAll, List.foldl_append]

/-- As long as no more than MAX_LINKS + 1 pairwise-distinct identifiers
are inserted at one instant into an empty registry, no entry expires and
no entry is evicted: the store is exactly the insertion list. The bound
is one above the maximum because the sweep runs before each insertion. -/
theorem insertAll_eq (ids : List String) (hnd : ids.Nodup)
    (hlen : ids.length ≤ MAX_LINKS + 1) :
    insertAll ids [] =
      ids.map (fun i => (i, { sampleLink with createdAt := 0 })) := by
  induction ids using List.reverseRecOn with
  | nil => rfl
  | append_singleton l x ih =>
    rw [List.nodup_append] at hnd
    have hx : x ∉ l := by
      intro hxl
      exact hnd.2.2 hxl (List.mem_singleton.mpr rfl)
    have hl : l.length ≤ MAX_LINKS := by
      rw [List.length_append] at hlen
      simp at hlen
      omega
    rw [insertAll_snoc, ih hnd.1 (by omega)]
    simp only [storeLink, pruneLinks]
    have hfil : (l.map (fun i => (i, { sampleLink with createdAt := 0 }))).filter
        (fun p => decide (0 - p.2.createdAt ≤ LINK_TTL))
        = l.map (fun i => (i, { sampleLink with createdAt := 0 })) := by
      refine List.filter_eq_self.mpr ?_
      intro p hp
      rcases List.mem_map.mp hp with ⟨i, hi, rfl⟩
      show decide ((0 : Nat) - 0 ≤ LINK_TTL) = true
      decide
    rw [hfil]
    rw [evictOldest_eq_self _ _ (by simpa using hl)]
    simp only [mapSet]
    have hkeys : (l.map (fun i => (i, { sampleLink with createdAt := 0 }))).map
        Prod.fst = l := by
      rw [List.map_map]
      have hcomp : (Prod.fst ∘ fun i : String =>
          (i, { sampleLink with createdAt := 0 })) = id := funext fun i => rfl
      rw [hcomp, List.map_id]
    rw [if_neg (by rw [hkeys]; exact hx)]
    rw [List.map_append]
    rfl

theorem scenario_store :
    insertAll (mkIds (MAX_LINKS + 1)) [] =
      (mkIds (MAX_LINKS + 1)).map
        (fun i => (i, { sampleLink with createdAt := 0 })) :=
  insertAll_eq _ (mkIds_nodup _) (by simp [mkIds])

theorem scenario_length :
    (insertAll (mkIds (MAX_LINKS + 1)) []).length = MAX_LINKS + 1 := by
  rw [scenario_store]
  simp [mkIds]

theorem scenario_first_present :
    mapGet (insertAll (mkIds (MAX_LINKS + 1)) []) (mkId 0) =
      some { sampleLink with createdAt := 0 } := by
  rw [scenario_store]
  rw [mkIds, List.range_succ_eq_map]
  simp only [List.map_cons]
  rw [mapGet, List.find?_cons_of_pos _ (by simp)]
  rfl

/- The claims. -/

/-- Claim C2 fails as stated: the sweep runs before, not after, each
insertion, so inserting MAX_LINKS + 1 fresh entries in sequence leaves
the registry at MAX_LINKS + 1 entries — one over the stated bound — and
the very first inserted entry is still present rather than evicted. -/
theorem C2_counterexample :
    (insertAll (mkIds (MAX_LINKS + 1)) []).length = MAX_LINKS + 1 ∧
    MAX_LINKS < MAX_LINKS + 1 ∧
    mapGet (insertAll (mkIds (MAX_LINKS + 1)) []) (mkId 0) =
      some { sampleLink with createdAt := 0 } :=
  ⟨scenario_length, by omega, scenario_first_present⟩

/-- Claim C2, amended: because the sweep runs before the insert, the
registry holds at most MAX_LINKS + 1 entries after any insertion and the
cache at most max(its previous size, MAX_CACHE + 1) after any warm-up;
capacity eviction always removes the oldest-inserted entries, dropping
from the front of the insertion order; and in the concrete scenario,
after inserting MAX_LINKS + 1 fresh entries in sequence the registry
holds exactly MAX_LINKS + 1 entries with the first one still present
(it would be evicted only by the next insertion). -/
theorem C2_bounds :
    (∀ (now : Nat) (id : String) (d : LinkEntry) (m : LinkStore),
      ((storeLink now id d m).2).length ≤ MAX_LINKS + 1) ∧
    (∀ (now : Nat) (url : String) (hs : List (String × String))
      (data : List Nat) (cache : VideoCache),
      (prefetch now url (FetchResult.success hs data) cache).length ≤
        max cache.length (MAX_CACHE + 1)) ∧
    (∀ (maxSize : Nat) (l : LinkStore),
      evictOldest maxSize l = l.drop (l.length - maxSize)) ∧
    ((insertAll (mkIds (MAX_LINKS + 1)) []).length = MAX_LINKS + 1) ∧
    ((mapGet (insertAll (mkIds (MAX_LINKS + 1)) []) (mkId 0)).isSome = true) := by
  refine ⟨?_, ?_, fun maxSize l => evictOldest_eq_drop maxSize l,
    scenario_length, ?_⟩
  · intro now id d m
    have h1 : (pruneLinks now m).length ≤ MAX_LINKS := by
      unfold pruneLinks
      rw [evictOldest_length]
      omega
    calc ((storeLink now id d m).2).length
        ≤ (pruneLinks now m).length + 1 := mapSet_length_le _ _ _
      _ ≤ MAX_LINKS + 1 := by omega
  · intro now url hs data cache
    by_cases hk : (mapGet cache (cacheKey url)).isSome = true
    · simp only [prefetch, hk, if_true]
      exact le_max_left _ _
    · have h1 : (pruneCache now cache).length ≤ MAX_CACHE := by
        unfold pruneCache
        rw [evictOldest_length]
        omega
      have h2 : (prefetch now url (FetchResult.success hs data) cache).length
          ≤ MAX_CACHE + 1 := by
        simp only [prefetch, hk, if_false]
        calc (mapSet (pruneCache now cache) (cacheKey url)
              { buffer := data,
                contentType := jsOrStr (headerGet hs "content-type") "video/mp4",
                totalSize := totalFromRange
                  (jsOrStr (headerGet hs "content-range") "").toList,
                createdAt := now }).length
            ≤ (pruneCache now cache).length + 1 := mapSet_length_le _ _ _
          _ ≤ MAX_CACHE + 1 := by omega
      exact le_trans h2 (le_max_right _ _)
  · rw [scenario_first_present]
    rfl

/-- Claim C4 fails as stated: createShortId draws 4 random bytes with no
check against the live registry, and storeLink stores with a plain
Map.set; when the generator repeats an identifier whose entry is still
live (here, age 5 ms against a TTL of one hour), the existing entry is
silently overwritten in place. -/
theorem C4_counterexample :
    mapGet ((storeLink 0 "abc" otherLink []).2) "abc" =
      some { otherLink with createdAt := 0 } ∧
    (5 : Nat) - 0 ≤ LINK_TTL ∧
    mapGet ((storeLink 5 "abc" sampleLink
      (storeLink 0 "abc" otherLink []).2).2) "abc" =
      some { sampleLink with createdAt := 5 } ∧
    ({ sampleLink with createdAt := 5 } : LinkEntry) ≠
      { otherLink with createdAt := 0 } := by
  refine ⟨by decide, by decide, by decide, by decide⟩

/-- Claim C4, amended: storeLink performs no freshness or liveness check
at all — it stores the drawn identifier unconditionally, so whenever the
random generator repeats a currently-live identifier the old entry is
overwritten (freshness holds only probabilistically, from the size of
the 4-byte identifier space, not by construction). This theorem shows
the unconditional overwrite: after any storeLink the identifier maps to
the new metadata, whatever was stored under it before. -/
theorem C4_overwrite (now : Nat) (id : String) (d : LinkEntry)
    (m : LinkStore) :
    (storeLink now id d m).1 = id ∧
    mapGet ((storeLink now id d m).2) id = some { d with createdAt := now } :=
  ⟨rfl, mapGet_mapSet_self (pruneLinks now m) id { d with createdAt := now }⟩

/-- Claim C5 fails as stated: of the four outbound origin calls, only
the warm-up ranged read sets a timeout; the guest-token fetch, the
metadata fetch and the live-stream open pass no timeout option, and the
axios default of 0 disables the timeout. -/
theorem C5_counterexample :
    outboundOriginCalls.all (fun c => c.timeout.isSome) = false := by
  decide

/-- Claim C5, amended: exactly one outbound origin call is issued with a
finite timeout bound — the warm-up ranged read (15000 ms); the
guest-token fetch, the metadata fetch and the live-stream open are
issued with no timeout. -/
theorem C5_timeouts :
    prefetchFetchConfig.timeout = some 15000 ∧
    accountsFetchConfig.timeout = none ∧
    contentsFetchConfig.timeout = none ∧
    liveStreamFetchConfig.timeout = none :=
  ⟨rfl, rfl, rfl, rfl⟩

/-- Claim C6: any warm-up failure is swallowed inside prefetch — the
transition returns with the cache exactly unchanged, so no entry appears
under the derived key; the return type carries no error channel, so
nothing can propagate to the caller that fired the warm-up. -/
theorem C6_failure_swallowed (now : Nat) (url : String)
    (cache : VideoCache) :
    prefetch now url FetchResult.failure cache = cache ∧
    mapGet (prefetch now url FetchResult.failure cache) (cacheKey url) =
      mapGet cache (cacheKey url) := by
  have h : prefetch now url FetchResult.failure cache = cache := by
    by_cases hk : (mapGet cache (cacheKey url)).isSome = true <;>
      simp [prefetch, hk]
  exact ⟨h, by rw [h]⟩

/-- Claim C7: an identifier absent from the registry yields a terminal
404 with the plain text of the source and both maps unchanged, with no
streaming attempted; a stored URL outside the gofile.io family yields a
terminal 403; and an upstream failure before any headers are sent yields
the 502 text response, or the origin status when one is known. -/
theorem C7_terminal_responses :
    (∀ (links : LinkStore) (cache : VideoCache) (req : VRequest),
      lookupId links req.qid = none →
      videoRoute links cache req =
        (VOutcome.plain 404 "Link expired or not found.", links, cache)) ∧
    (∀ (links : LinkStore) (cache : VideoCache) (i : String)
      (entry : LinkEntry) (r : Option String),
      mapGet links i = some entry → isGoFile entry.videoUrl = false →
      videoRoute links cache ⟨some i, r⟩ =
        (VOutcome.plain 403 "Invalid source.", links, cache)) ∧
    (∀ errStatus : Option Nat,
      handleLiveFailure errStatus false = some (502, "Proxy error") ∨
      ∃ s, errStatus = some s ∧
        handleLiveFailure errStatus false = some (s, "Proxy error")) := by
  refine ⟨?_, ?_, ?_⟩
  · intro links cache req hmiss
    simp only [videoRoute, hmiss]
  · intro links cache i entry r hhit hbad
    simp only [videoRoute, lookupId, hhit, hbad, Bool.false_eq_true, if_false]
  · intro errStatus
    cases errStatus with
    | none => exact Or.inl rfl
    | some s =>
      by_cases hs : s = 0
      · exact Or.inl (by simp [handleLiveFailure, hs])
      · exact Or.inr ⟨s, rfl, by simp [handleLiveFailure, hs]⟩

/-- Witness for C7_terminal_responses: an unknown identifier on empty
stores gets the 404, a registry entry pointing outside gofile.io gets
the 403, and a stream failure without a known origin status gets the
502. -/
theorem C7_terminal_responses_witness :
    videoRoute ([] : LinkStore) ([] : VideoCache) ⟨some "zz", none⟩ =
      (VOutcome.plain 404 "Link expired or not found.", [], []) ∧
    videoRoute badLinks ([] : VideoCache) ⟨some "b", none⟩ =
      (VOutcome.plain 403 "Invalid source.", badLinks, []) ∧
    handleLiveFailure none false = some (502, "Proxy error") := by
  refine ⟨C7_terminal_responses.1 [] [] ⟨some "zz", none⟩ (by decide),
    C7_terminal_responses.2.1 badLinks [] "b" badEntry none (by decide)
      (by decide), ?_⟩
  have h := C7_terminal_responses.2.2 none
  rcases h with h | ⟨s, hs, _⟩
  · exact h
  · cases hs

/-- Claim C8: cacheKey is a pure function of the URL string — equal
inputs give equal keys — and any two registry entries carrying the same
origin URL derive the same cache key, so they look up the same cache
entry in any cache state. -/
theorem C8_cacheKey_deterministic :
    (∀ u v : String, u = v → cacheKey u = cacheKey v) ∧
    (∀ (links : LinkStore) (cache : VideoCache) (id1 id2 : String)
      (e1 e2 : LinkEntry),
      mapGet links id1 = some e1 → mapGet links id2 = some e2 →
      e1.videoUrl = e2.videoUrl →
      cacheKey e1.videoUrl = cacheKey e2.videoUrl ∧
      mapGet cache (cacheKey e1.videoUrl) =
        mapGet cache (cacheKey e2.videoUrl)) := by
  refine ⟨fun u v h => by rw [h], ?_⟩
  intro links cache id1 id2 e1 e2 h1 h2 hurl
  rw [hurl]
  exact ⟨rfl, rfl⟩

/-- Witness for C8_cacheKey_deterministic: two distinct short links to
the same origin URL share the derived key and hence the cache lookup. -/
theorem C8_cacheKey_deterministic_witness :
    cacheKey demoEntry.videoUrl = cacheKey demoEntry2.videoUrl ∧
    mapGet demoCache (cacheKey demoEntry.videoUrl) =
      mapGet demoCache (cacheKey demoEntry2.videoUrl) :=
  C8_cacheKey_deterministic.2 demoLinks2 demoCache "x" "y" demoEntry
    demoEntry2 (by decide) (by decide) rfl

/-- Claim C1 fails in exactly one corner: the cache path omits the
Content-Range header although the total size is known, whenever that
known total is 0 (JS truthiness of cached.totalSize). Here the warm-up
stored an entry from an origin Content-Range of "bytes 0-2/0", so
totalSize is known (some 0), the ranged request is answered 206 from the
cache — but without any Content-Range header. -/
theorem C1_counterexample :
    (videoRoute demoLinks zeroTotalCache ⟨some "x", some "bytes=0-1"⟩).1 =
      VOutcome.cacheHit
        { status := 206, contentType := "video/mp4", contentLength := 2,
          acceptRanges := "bytes", contentDisposition := "inline",
          contentRange := none, body := [10, 20] } ∧
    (mapGet zeroTotalCache (cacheKey demoUrl)).map CacheEntry.totalSize =
      some (some 0) := by
  refine ⟨by decide, by decide⟩

/-- Claim C1, amended: for every playback request with a parsed Range
whose start and effective end (the given end, else the last buffer
index) fall inside the cached buffer, the handler answers 206 from the
cache with body equal to the exact byte slice [start, end] of the
buffer, Content-Length equal to the slice length, Accept-Ranges bytes,
both maps unchanged and no live stream opened; the Content-Range header
reporting start-end/total is present exactly when the total size is
known and nonzero (a known total of 0 is falsy and drops the header —
the sole amendment). -/
theorem C1_cache_path (links : LinkStore) (cache : VideoCache)
    (i h : String) (entry : LinkEntry) (cached : CacheEntry)
    (rStart : Int) (rEndO : Option (Option Int)) (e : Int)
    (hlink : mapGet links i = some entry)
    (hgo : isGoFile entry.videoUrl = true)
    (hcache : mapGet cache (cacheKey entry.videoUrl) = some cached)
    (hparse : parseRange h = (rStart, rEndO))
    (heff : rEndO = some (some e) ∨
      (rEndO = none ∧ e = (cached.buffer.length : Int) - 1))
    (hs0 : 0 ≤ rStart) (he0 : 0 ≤ e)
    (hslt : rStart < (cached.buffer.length : Int))
    (helt : e < (cached.buffer.length : Int)) :
    (videoRoute links cache ⟨some i, some h⟩).2 = (links, cache) ∧
    (videoRoute links cache ⟨some i, some h⟩).1.isLive = false ∧
    ((videoRoute links cache ⟨some i, some h⟩).1.cacheResp.map
      CacheResponse.status = some 206) ∧
    ((videoRoute links cache ⟨some i, some h⟩).1.cacheResp.map
      CacheResponse.body
      = some (byteSlice cached.buffer rStart.toNat e.toNat)) ∧
    ((videoRoute links cache ⟨some i, some h⟩).1.cacheResp.map
      CacheResponse.contentLength
      = some (byteSlice cached.buffer rStart.toNat e.toNat).length) ∧
    ((videoRoute links cache ⟨some i, some h⟩).1.cacheResp.map
      CacheResponse.acceptRanges = some "bytes") ∧
    (∀ t : Nat, cached.totalSize = some t → t ≠ 0 →
      (videoRoute links cache ⟨some i, some h⟩).1.cacheResp.map
        CacheResponse.contentRange
        = some (some ("bytes " ++ toString rStart ++ "-" ++ toString e
            ++ "/" ++ toString t))) ∧
    ((cached.totalSize = none ∨ cached.totalSize = some 0) →
      (videoRoute links cache ⟨some i, some h⟩).1.cacheResp.map
        CacheResponse.contentRange = some none) := by
  have hroute := videoRoute_cacheHit links cache i h entry cached rStart
    rEndO e hlink hgo hcache hparse heff ⟨hslt, helt⟩
  have hslice := jsSubarray_eq_byteSlice cached.buffer rStart e hs0 he0
    hslt helt
  rw [hroute]
  refine ⟨rfl, rfl, rfl, ?_, ?_, rfl, ?_, ?_⟩
  · simp [VOutcome.cacheResp, hslice]
  · simp [VOutcome.cacheResp, hslice]
  · intro t ht ht0
    simp [VOutcome.cacheResp, ht, ht0]
  · intro hcase
    rcases hcase with hc | hc <;> simp [VOutcome.cacheResp, hc]

/-- Witness for C1_cache_path: the warmed three-byte cache with total
300 answers Range bytes=0-1 with the two-byte slice and the
Content-Range header. -/
theorem C1_cache_path_witness :
    ((videoRoute demoLinks demoCache ⟨some "x", some "bytes=0-1"⟩).1.cacheResp.map
      CacheResponse.body = some [10, 20]) ∧
    ((videoRoute demoLinks demoCache ⟨some "x", some "bytes=0-1"⟩).1.cacheResp.map
      CacheResponse.contentRange = some (some "bytes 0-1/300")) := by
  have H := C1_cache_path demoLinks demoCache "x" "bytes=0-1" demoEntry
    dcEntry 0 (some (some 1)) 1 (by decide) (by decide) (by decide)
    (by decide) (Or.inl rfl) (by decide) (by decide) (by decide) (by decide)
  constructor
  · have hb := H.2.2.2.1
    rw [hb]
    decide
  · have hcr := H.2.2.2.2.2.2.1 300 rfl (by decide)
    rw [hcr]
    decide

/-- Claim C3: with a cache entry present, a parsed range whose start is
at or beyond the buffer length, or whose explicit end is at or beyond
the buffer length, never takes the cache path: the handler opens the
live stream instead. -/
theorem C3_live_fallthrough (links : LinkStore) (cache : VideoCache)
    (i h : String) (entry : LinkEntry) (cached : CacheEntry)
    (rStart : Int) (rEndO : Option (Option Int))
    (hlink : mapGet links i = some entry)
    (hgo : isGoFile entry.videoUrl = true)
    (hcache : mapGet cache (cacheKey entry.videoUrl) = some cached)
    (hparse : parseRange h = (rStart, rEndO))
    (hover : (cached.buffer.length : Int) ≤ rStart ∨
      ∃ e, rEndO = some (some e) ∧ (cached.buffer.length : Int) ≤ e) :
    (videoRoute links cache ⟨some i, some h⟩).1.isLive = true := by
  rcases rEndO with _ | ev
  · simp only [videoRoute, lookupId, hlink, hgo, hcache, hparse, if_true]
    rcases hover with hs | ⟨e, he, _⟩
    · rw [if_neg (by push_neg; intro hlt; omega)]
      exact liveOutcome_isLive ..
    · cases he
  · rcases ev with _ | e0
    · simp only [videoRoute, lookupId, hlink, hgo, hcache, hparse, if_true]
      exact liveOutcome_isLive ..
    · have hne : ¬(rStart < (cached.buffer.length : Int) ∧
          e0 < (cached.buffer.length : Int)) := by
        rcases hover with hs | ⟨e, he, hle⟩
        · omega
        · have he0 : e0 = e := by injection he with h1; injection h1
          omega
      simp only [videoRoute, lookupId, hlink, hgo, hcache, hparse, if_true]
      rw [if_neg hne]
      exact liveOutcome_isLive ..

/-- Witness for C3_live_fallthrough: Range bytes=5- against the warmed
three-byte cache falls through to the live stream. -/
theorem C3_live_fallthrough_witness :
    (videoRoute demoLinks demoCache ⟨some "x", some "bytes=5-"⟩).1.isLive
      = true :=
  C3_live_fallthrough demoLinks demoCache "x" "bytes=5-" demoEntry dcEntry
    5 none (by decide) (by decide) (by decide) (by decide)
    (Or.inl (by decide))

/-- Claim C9 fails as stated: prefetch stores Buffer.from(resp.data)
verbatim, with no truncation — when the origin ignores the ranged read
and returns CACHE_CHUNK + 1 bytes, the stored buffer holds
CACHE_CHUNK + 1 bytes, over the configured chunk size. -/
theorem C9_counterexample :
    ((prefetch 0 "u"
        (FetchResult.success [] (List.replicate (CACHE_CHUNK + 1) 37)) []).map
      (fun p => p.2.buffer.length)) = [CACHE_CHUNK + 1] ∧
    CACHE_CHUNK < CACHE_CHUNK + 1 := by
  constructor
  · simp [prefetch, mapGet, mapSet, pruneCache, evictOldest, jsOrStr,
      headerGet]
  · omega

/-- Claim C9, amended: a warm-up that actually inserts stores exactly
the bytes of the origin response as the buffer — which is bounded by
CACHE_CHUNK precisely when the origin returned at most CACHE_CHUNK
bytes — and the cache keeps at most one entry per distinct key
(distinctness of keys is preserved by every warm-up insertion). -/
theorem C9_buffer_stored (now : Nat) (url : String)
    (hs : List (String × String)) (data : List Nat) (cache : VideoCache)
    (habs : mapGet cache (cacheKey url) = none) :
    ((mapGet (prefetch now url (FetchResult.success hs data) cache)
      (cacheKey url)).map CacheEntry.buffer = some data) ∧
    (data.length ≤ CACHE_CHUNK →
      ∀ en : CacheEntry,
        mapGet (prefetch now url (FetchResult.success hs data) cache)
          (cacheKey url) = some en → en.buffer.length ≤ CACHE_CHUNK) ∧
    ((cache.map Prod.fst).Nodup →
      ((prefetch now url (FetchResult.success hs data) cache).map
        Prod.fst).Nodup) := by
  have hbuf : (mapGet (prefetch now url (FetchResult.success hs data) cache)
      (cacheKey url)).map CacheEntry.buffer = some data := by
    simp only [prefetch, habs, Option.isSome_none, Bool.false_eq_true,
      if_false]
    rw [mapGet_mapSet_self]
    rfl
  refine ⟨hbuf, ?_, ?_⟩
  · intro hlen en hen
    rw [hen] at hbuf
    have hb : en.buffer = data := by
      simpa using hbuf
    rw [hb]
    exact hlen
  · intro hnd
    simp only [prefetch, habs, Option.isSome_none, Bool.false_eq_true,
      if_false]
    exact mapSet_keys_nodup _ _ _
      ((pruneCache_keys_sublist now cache).nodup hnd)

/-- Witness for C9_buffer_stored: warming an empty cache with a
three-byte response stores exactly those three bytes. -/
theorem C9_buffer_stored_witness :
    (mapGet (prefetch 0 "u" (FetchResult.success [] [1, 2, 3]) [])
      (cacheKey "u")).map CacheEntry.buffer = some [1, 2, 3] :=
  (C9_buffer_stored 0 "u" [] [1, 2, 3] [] (by decide)).1

/-- Claim C10: a suffix-form Range header bytes=-N parses to start 0 and
end N (parts[0] is empty, so parseInt gives NaN, which the or-zero turns
into 0), and when a cache entry has more than N buffered bytes the
handler serves the leading N + 1 bytes [0, N] of the buffer as a 206 —
not the trailing N bytes of the resource. -/
theorem C10_suffix_range (links : LinkStore) (cache : VideoCache)
    (i : String) (entry : LinkEntry) (cached : CacheEntry)
    (ds : List Char) (N : Nat)
    (hlink : mapGet links i = some entry)
    (hgo : isGoFile entry.videoUrl = true)
    (hcache : mapGet cache (cacheKey entry.videoUrl) = some cached)
    (hne : ds ≠ []) (hdig : ∀ c ∈ ds, c.isDigit = true)
    (hval : digitsToNat ds = N)
    (hlen : N < cached.buffer.length) :
    parseRange ("bytes=-" ++ String.mk ds) = (0, some (some (N : Int))) ∧
    ((videoRoute links cache
        ⟨some i, some ("bytes=-" ++ String.mk ds)⟩).1.cacheResp.map
      CacheResponse.status = some 206) ∧
    ((videoRoute links cache
        ⟨some i, some ("bytes=-" ++ String.mk ds)⟩).1.cacheResp.map
      CacheResponse.body = some (cached.buffer.take (N + 1))) := by
  have hparse : parseRange ("bytes=-" ++ String.mk ds)
      = (0, some (some (N : Int))) := by
    rw [parseRange_suffix ds hne hdig, hval]
  have hroute := videoRoute_cacheHit links cache i
    ("bytes=-" ++ String.mk ds) entry cached 0 (some (some (N : Int)))
    (N : Int) hlink hgo hcache hparse (Or.inl rfl)
    ⟨by omega, by omega⟩
  have hslice := jsSubarray_eq_byteSlice cached.buffer 0 (N : Int)
    (by omega) (by omega) (by omega) (by omega)
  refine ⟨hparse, ?_, ?_⟩
  · rw [hroute]
    rfl
  · rw [hroute]
    simp only [VOutcome.cacheResp, hslice, byteSlice]
    simp

/-- Witness for C10_suffix_range: Range bytes=-5 against the warmed
seven-byte cache serves the six leading bytes [0, 5]. -/
theorem C10_suffix_range_witness :
    parseRange ("bytes=-" ++ String.mk ['5']) = (0, some (some 5)) ∧
    ((videoRoute demoLinks demoCache7
        ⟨some "x", some ("bytes=-" ++ String.mk ['5'])⟩).1.cacheResp.map
      CacheResponse.body = some [0, 1, 2, 3, 4, 5]) := by
  have H := C10_suffix_range demoLinks demoCache7 "x" demoEntry dc7Entry
    ['5'] 5 (by decide) (by decide) (by decide) (by decide) (by decide)
    (by decide) (by decide)
  refine ⟨H.1, ?_⟩
  rw [H.2.2]
  decide

end GoFileEmbedder
